import Mathlib

/-!
Verification of the Open MCP Gateway core (server lifecycle manager, runtime
abstraction, hot-reloadable catalog/registry) against its documented design.

The repository is a documentation site: the behaviour of the gateway is given
by the Rust fragments and prose under `docs/`.  Where a fragment gives a full
implementation (message shape predicates, connection-pool `get`/`release`,
`stop_server`, `check_idle_servers`, `update_registry`, the HTTP handlers,
`LocalProcessConnection::close`) the Lean definition below is a direct shallow
embedding of that fragment.  Where only a declaration appears (the catalog
loader, `ServerManager::start_server`, `get_status`, the pool's wait branch),
the definition is modelled from the specification's words and is marked as
such in its doc comment.
-/

namespace OpenMCP

/-! ### Association-list maps

The documented gateway keeps its registry, per-server state and per-server
pools in string-keyed maps.  We model those maps as association lists. -/

/-- Look up the value bound to key `k`. -/
def lookupKey {V : Type} (k : String) : List (String × V) → Option V
  | [] => none
  | p :: l => if p.1 = k then some p.2 else lookupKey k l

/-- Apply `f` to the value bound to `k` (no-op when `k` is absent). -/
def updKey {V : Type} (k : String) (f : V → V) :
    List (String × V) → List (String × V)
  | [] => []
  | p :: l => (if p.1 = k then (p.1, f p.2) else p) :: updKey k f l

/-- Remove the binding for `k`. -/
def removeKey {V : Type} (k : String) :
    List (String × V) → List (String × V)
  | [] => []
  | p :: l => if p.1 = k then removeKey k l else p :: removeKey k l

/-- Does a binding for `k` exist? -/
def hasKey {V : Type} (k : String) (l : List (String × V)) : Bool :=
  (lookupKey k l).isSome

/-- Bind `k` to `v`: update the existing binding, else append a new one
(appending preserves the insertion order of first reference). -/
def setKey {V : Type} (k : String) (v : V) (l : List (String × V)) :
    List (String × V) :=
  if hasKey k l then updKey k (fun _ => v) l else l ++ [(k, v)]

/-! ### MCP message envelope

Embedded from `docs/developer/architecture.md` (`McpMessage` and its
`is_request` / `is_response` / `is_notification` methods).  Payload values are
opaque to the shape predicates; we model them as strings. -/

structure McpMessage where
  jsonrpc : String
  id : Option String
  method : Option String
  params : Option String
  result : Option String
  error : Option String
deriving DecidableEq, Repr

/-- `self.method.is_some() && self.id.is_some()`. -/
def McpMessage.is_request (m : McpMessage) : Bool :=
  m.method.isSome && m.id.isSome

/-- `self.result.is_some() || self.error.is_some()`. -/
def McpMessage.is_response (m : McpMessage) : Bool :=
  m.result.isSome || m.error.isSome

/-- `self.method.is_some() && self.id.is_none()`. -/
def McpMessage.is_notification (m : McpMessage) : Bool :=
  m.method.isSome && m.id.isNone

/-- Number of the three shape predicates that hold of `m`. -/
def McpMessage.shapeCount (m : McpMessage) : Nat :=
  (if m.is_request then 1 else 0) + (if m.is_response then 1 else 0) +
    (if m.is_notification then 1 else 0)

/-! ### Local-process connection shutdown

Embedded from `docs/developer/architecture.md`, `LocalProcessConnection`:
its `close` body is exactly `self.child.kill().await?; Ok(())`.  We record
the sequence of process-control actions `close` performs. -/

inductive ProcAction where
  /-- graceful termination signal (SIGTERM) -/
  | sigterm
  /-- wait out a grace period -/
  | waitGrace
  /-- forced termination (SIGKILL / `Child::kill`) -/
  | sigkill
deriving DecidableEq, Repr

structure LocalProcessConnection where
  childPid : Nat
deriving DecidableEq, Repr

/-- Embeds `LocalProcessConnection::close`: the body performs a single
`self.child.kill()` and returns Ok. -/
def LocalProcessConnection.close (_c : LocalProcessConnection) :
    List ProcAction :=
  [ProcAction.sigkill]

/-- The local-process lifecycle documented in `docs/configuration/runtimes.md`
("Stop: SIGTERM, wait, then SIGKILL if needed"): graceful signal first,
forced termination only after a grace period. -/
def documentedStopSequence : List ProcAction :=
  [ProcAction.sigterm, ProcAction.waitGrace, ProcAction.sigkill]

/-! ### Catalog entries and server definitions

Field set from `docs/configuration/server-catalog.md` (Structure / Server
Definition Fields).  A raw entry is the parsed but not yet validated form:
`id` and `runtime` may be absent. -/

structure RawRuntime where
  rtype : String
  command : Option String
  args : List String
  url : Option String
deriving DecidableEq, Repr

structure RawEntry where
  id : Option String
  display_name : Option String
  description : Option String
  runtime : Option RawRuntime
  env : List (String × String)
  tags : List String
deriving DecidableEq, Repr

/-- Runtime variants.  The recognized `type` tags in the current version are
`local-process` and `remote-sse` (`docs/configuration/runtimes.md`; docker and
k8s runtimes are marked as planned for future versions). -/
inductive RuntimeType where
  | localProcess
  | remoteSse
  | unrecognized (tag : String)
deriving DecidableEq, Repr

def recognizedTypes : List String := ["local-process", "remote-sse"]

def parseRuntimeType (tag : String) : RuntimeType :=
  if tag = "local-process" then RuntimeType.localProcess
  else if tag = "remote-sse" then RuntimeType.remoteSse
  else RuntimeType.unrecognized tag

def RuntimeType.type_name : RuntimeType → String
  | RuntimeType.localProcess => "local-process"
  | RuntimeType.remoteSse => "remote-sse"
  | RuntimeType.unrecognized tag => tag

structure ServerDefinition where
  id : String
  display_name : String
  description : Option String
  runtime : RuntimeType
  env : List (String × String)
  tags : List String
deriving DecidableEq, Repr

/-- The id of a raw entry (empty string when absent). -/
def RawEntry.entryId (e : RawEntry) : String :=
  e.id.getD ""

/-- A validated entry as a server definition.  `display_name` defaults to the
id (`docs/configuration/server-catalog.md`). -/
def RawEntry.toDef (e : RawEntry) : ServerDefinition :=
  { id := e.entryId
    display_name := e.display_name.getD e.entryId
    description := e.description
    runtime := parseRuntimeType ((e.runtime.map RawRuntime.rtype).getD "")
    env := e.env
    tags := e.tags }

/-! ### Server registry

`docs/developer/architecture.md` declares `ServerRegistry` with `get`, `all`,
`by_tag` (and `contains`, used by the handlers) but gives no bodies.
Modelled from the spec: the registry is an immutable snapshot built from one
catalog, and `all()` returns the definitions in the insertion order of the
source catalog, for deterministic listing. -/

structure ServerRegistry where
  servers : List (String × ServerDefinition)
deriving DecidableEq, Repr

def ServerRegistry.ofEntries (es : List RawEntry) : ServerRegistry :=
  ⟨es.map (fun e => (e.entryId, e.toDef))⟩

def ServerRegistry.get (r : ServerRegistry) (id : String) :
    Option ServerDefinition :=
  lookupKey id r.servers

def ServerRegistry.contains (r : ServerRegistry) (id : String) : Bool :=
  hasKey id r.servers

def ServerRegistry.all (r : ServerRegistry) : List ServerDefinition :=
  r.servers.map Prod.snd

def ServerRegistry.ids (r : ServerRegistry) : List String :=
  r.servers.map Prod.fst

def ServerRegistry.by_tag (r : ServerRegistry) (tag : String) :
    List ServerDefinition :=
  r.all.filter (fun d => d.tags.contains tag)

/-! ### Catalog loader

Modelled from the spec: the loader implementation is absent from the docs
(only its error messages appear, in `docs/configuration/server-catalog.md`
"Validation Rules" and the hot-reload page).  Validation rules are applied in
the spec's fixed order — (a) syntax parses, (b) every entry has a non-empty
id, (c) ids are unique, (d) every entry has a runtime block, (e) the runtime
type tag is recognized — first failure wins, and a failing catalog is
rejected in its entirety.  A catalog source is `none` when it does not parse
as the structured config format. -/

inductive LoadError where
  /-- "Standard YAML parse error" -/
  | parseError
  /-- "Server at index n missing required field: id" (also covering an
  empty id, which the spec requires to be non-empty) -/
  | missingId (index : Nat)
  /-- "Duplicate server ID: id" -/
  | duplicateId (id : String)
  /-- "Server id missing required field: runtime" -/
  | missingRuntime (id : String)
  /-- "Server id has unknown runtime type: tag" -/
  | unknownRuntimeType (id : String) (tag : String)
deriving DecidableEq, Repr

/-- Is the entry's id missing or empty? -/
def RawEntry.idBad (e : RawEntry) : Bool :=
  e.entryId == ""

/-- Index of the first entry with a missing/empty id. -/
def firstMissingId : List RawEntry → Nat → Option Nat
  | [], _ => none
  | e :: es, n => if e.idBad then some n else firstMissingId es (n + 1)

/-- First id that occurs again later in the list. -/
def firstDupId : List String → Option String
  | [] => none
  | x :: xs => if xs.contains x then some x else firstDupId xs

/-- Id of the first entry with no runtime block. -/
def firstMissingRuntime : List RawEntry → Option String
  | [] => none
  | e :: es =>
    if e.runtime.isNone then some e.entryId else firstMissingRuntime es

/-- Id and tag of the first entry whose runtime type tag is unrecognized. -/
def firstUnknownType : List RawEntry → Option (String × String)
  | [] => none
  | e :: es =>
    match e.runtime with
    | none => firstUnknownType es
    | some r =>
      if recognizedTypes.contains r.rtype then firstUnknownType es
      else some (e.entryId, r.rtype)

/-- Modelled from the spec: `load(source) → ServerRegistry |
Fails(ParseError | ValidationError)`, rules applied in the fixed order with
the first failure determining the error, all-or-nothing. -/
def load (src : Option (List RawEntry)) : Except LoadError ServerRegistry :=
  match src with
  | none => Except.error LoadError.parseError
  | some es =>
    match firstMissingId es 0 with
    | some n => Except.error (LoadError.missingId n)
    | none =>
      match firstDupId (es.map RawEntry.entryId) with
      | some i => Except.error (LoadError.duplicateId i)
      | none =>
        match firstMissingRuntime es with
        | some i => Except.error (LoadError.missingRuntime i)
        | none =>
          match firstUnknownType es with
          | some p => Except.error (LoadError.unknownRuntimeType p.1 p.2)
          | none => Except.ok (ServerRegistry.ofEntries es)

/-- One reload step of the Watcher against the currently active registry:
on success the new registry replaces the old; on failure the previous
registry remains in effect and the error is reported (logged). -/
def reloadRegistry (current : ServerRegistry) (src : Option (List RawEntry)) :
    ServerRegistry × Option LoadError :=
  match load src with
  | Except.ok r => (r, none)
  | Except.error e => (current, some e)

/-! Rule predicates, stated the way the validation rules read. -/

/-- Rule (b): every server entry has a non-empty id. -/
def RuleIds (es : List RawEntry) : Prop :=
  ∀ e ∈ es, e.idBad = false

/-- Rule (c): ids are unique within the catalog. -/
def RuleUnique (es : List RawEntry) : Prop :=
  (es.map RawEntry.entryId).Nodup

/-- Rule (d): every entry has a runtime block. -/
def RuleRuntime (es : List RawEntry) : Prop :=
  ∀ e ∈ es, e.runtime.isSome = true

/-- Rule (e): every present runtime type tag is recognized. -/
def RuleKnownType (es : List RawEntry) : Prop :=
  ∀ e ∈ es, ∀ r, e.runtime = some r → recognizedTypes.contains r.rtype = true

instance (es : List RawEntry) : Decidable (RuleIds es) :=
  List.decidableBAll _ es

instance (es : List RawEntry) : Decidable (RuleUnique es) :=
  List.nodupDecidable _

instance (es : List RawEntry) : Decidable (RuleRuntime es) :=
  List.decidableBAll _ es

instance (es : List RawEntry) : Decidable (RuleKnownType es) :=
  List.decidableBAll _ es

/-! ### Connection pool

Embedded from `docs/developer/contributing.md` (`ConnectionPool`): `get` pops
an available index, else pushes a new connection if `connections.len() <
max_size`; the branch that waits for a connection to become available is left
as `todo!` in the docs and is modelled from the spec (block until a
connection is released or a timeout elapses, failing with PoolExhausted on
timeout — in either case no connection is created).  Connections are opaque;
the pool records how many live ones exist and the queue of available
indices. -/

structure CPool where
  /-- number of live connections (`self.connections.len()`) -/
  connections : Nat
  /-- queue of available (idle) connection indices -/
  available : List Nat
  max_size : Nat
deriving DecidableEq, Repr

inductive PoolGetResult where
  /-- an available connection was popped -/
  | reused (idx : Nat)
  /-- a new connection was created (under the cap) -/
  | created (idx : Nat)
  /-- the caller blocked and eventually received a released connection -/
  | waitedReused
  /-- the caller blocked and timed out: PoolExhausted -/
  | exhausted
deriving DecidableEq, Repr

/-- `ConnectionPool::get`.  `waitOutcome` resolves the modelled waiting
branch: `true` when another caller releases a connection before the timeout,
`false` when the timeout elapses first. -/
def CPool.get (p : CPool) (waitOutcome : Bool) : PoolGetResult × CPool :=
  match p.available with
  | idx :: rest => (PoolGetResult.reused idx, { p with available := rest })
  | [] =>
    if p.connections < p.max_size then
      (PoolGetResult.created p.connections,
        { p with connections := p.connections + 1 })
    else if waitOutcome then (PoolGetResult.waitedReused, p)
    else (PoolGetResult.exhausted, p)

/-- `ConnectionPool::release`, extended per the spec: a broken connection is
closed and its slot freed instead of being returned to the available
queue. -/
def CPool.release (p : CPool) (idx : Nat) (broken : Bool) : CPool :=
  if broken then { p with connections := p.connections - 1 }
  else { p with available := p.available ++ [idx] }

/-- `ConnectionPool::close_all` (used during server shutdown): every
connection is closed. -/
def CPool.close_all (p : CPool) : CPool :=
  { p with connections := 0, available := [] }

inductive PoolOp where
  | opGet (waitOutcome : Bool)
  | opRelease (idx : Nat) (broken : Bool)
deriving DecidableEq, Repr

def CPool.step (p : CPool) : PoolOp → CPool
  | PoolOp.opGet w => (p.get w).2
  | PoolOp.opRelease idx broken => p.release idx broken

/-- A fresh pool for one server id. -/
def CPool.empty (max : Nat) : CPool :=
  ⟨0, [], max⟩

/-- The pool state after a sequence of operations on a fresh pool. -/
def runPool (max : Nat) (ops : List PoolOp) : CPool :=
  ops.foldl CPool.step (CPool.empty max)

/-! ### Lifecycle manager

State per `docs/developer/contributing.md` (`ServerManager` / `ServerState`):
a registry snapshot, a status map and a per-server connection-pool map.
Timestamps are naturals (a monotonic clock). -/

inductive ServerStatus where
  | stopped
  | starting
  | running
  | shuttingDown
  | unhealthy
deriving DecidableEq, Repr

structure ServerState where
  status : ServerStatus
  started_at : Option Nat
  last_activity : Nat
  request_count : Nat
  error_count : Nat
deriving DecidableEq, Repr

structure ManagerConfig where
  idle_timeout : Nat
  health_check_interval : Nat
  max_connections_per_server : Nat
  request_timeout : Nat
deriving DecidableEq, Repr

structure ManagerState where
  registry : ServerRegistry
  status : List (String × ServerState)
  connections : List (String × CPool)
deriving DecidableEq, Repr

inductive GatewayError where
  | serverNotFound (id : String)
  | startFailed (id : String)
  | poolExhausted (id : String)
deriving DecidableEq, Repr

/-- Status of a server id as observed by the manager: ids with no lazily
created `ServerState` yet are Stopped. -/
def ManagerState.statusOf (ms : ManagerState) (id : String) : ServerStatus :=
  ((lookupKey id ms.status).map ServerState.status).getD ServerStatus.stopped

/-- `last_activity` of a server id (0 when no state exists yet). -/
def ManagerState.lastActivityOf (ms : ManagerState) (id : String) : Nat :=
  ((lookupKey id ms.status).map ServerState.last_activity).getD 0

/-- Number of live pooled connections held for a server id (0 when it has no
pool). -/
def ManagerState.poolConns (ms : ManagerState) (id : String) : Nat :=
  ((lookupKey id ms.connections).map CPool.connections).getD 0

/-- `ServerManager::stop_server` (contributing.md "Graceful Shutdown"):
mark ShuttingDown, remove the server's pool and close all its connections,
then mark Stopped and clear `started_at`. -/
def stop_server (ms : ManagerState) (id : String) : ManagerState :=
  let st1 := updKey id
    (fun st => { st with status := ServerStatus.shuttingDown }) ms.status
  let conns1 := removeKey id ms.connections
  let st2 := updKey id
    (fun st => { st with status := ServerStatus.stopped, started_at := none })
    st1
  { ms with status := st2, connections := conns1 }

/-- Modelled from the spec: the body of `ServerManager::start_server` is
absent from the docs (declaration only).  Per §4.5: if Stopped, transition
to Starting, establish at least one Connection via the pool; on success
transition to Running and record `started_at`; on failure remain/return to
Stopped and surface the error.  `outcome` resolves the runtime adapter's
connect attempt. -/
def start_server (cfg : ManagerConfig) (ms : ManagerState) (id : String)
    (outcome : Bool) (now : Nat) : ManagerState × Except GatewayError Unit :=
  if ms.registry.contains id = false then
    (ms, Except.error (GatewayError.serverNotFound id))
  else if ms.statusOf id ≠ ServerStatus.stopped then
    (ms, Except.ok ())
  else if outcome then
    ({ ms with
        status := setKey id
          { status := ServerStatus.running, started_at := some now,
            last_activity := now, request_count := 0, error_count := 0 }
          ms.status
        connections := setKey id
          { connections := 1, available := [0],
            max_size := cfg.max_connections_per_server }
          ms.connections },
      Except.ok ())
  else
    ({ ms with
        status := setKey id
          { status := ServerStatus.stopped, started_at := none,
            last_activity := now, request_count := 0, error_count := 0 }
          ms.status },
      Except.error (GatewayError.startFailed id))

/-- Modelled from the spec: `get_status` has no body in the docs; for ids
outside the Registry the manager reports NotFound ("For all server ids not
in the Registry, `acquire` and `start` return NotFound"). -/
def get_status (ms : ManagerState) (id : String) :
    Except GatewayError ServerStatus :=
  if ms.registry.contains id then Except.ok (ms.statusOf id)
  else Except.error (GatewayError.serverNotFound id)

/-- `ServerManager::touch` (contributing.md): bump `last_activity` and
`request_count` of an existing state. -/
def touch (ms : ManagerState) (id : String) (now : Nat) : ManagerState :=
  let st1 := updKey id
    (fun st => { st with last_activity := now,
                         request_count := st.request_count + 1 })
    ms.status
  { ms with status := st1 }

/-- The pool-checkout tail of `get_connection` ("Get connection from pool"
then "Update activity timestamp"): `ok_or(ServerNotFound)` when no pool
exists for the id, PoolExhausted when the pool's waiting branch times out,
otherwise the checked-out connection plus a `touch`. -/
def checkout_connection (ms1 : ManagerState) (id : String)
    (waitOutcome : Bool) (now : Nat) :
    ManagerState × Except GatewayError PoolGetResult :=
  match lookupKey id ms1.connections with
  | none => (ms1, Except.error (GatewayError.serverNotFound id))
  | some p =>
    let r := p.get waitOutcome
    match r.1 with
    | PoolGetResult.exhausted =>
      ({ ms1 with connections := setKey id r.2 ms1.connections },
        Except.error (GatewayError.poolExhausted id))
    | res =>
      (touch { ms1 with connections := setKey id r.2 ms1.connections }
        id now,
        Except.ok res)

/-- `ServerManager::get_connection` (contributing.md "Auto-Start on
Demand"): read the status, auto-start when Stopped, then check a connection
out of the server's pool and touch the activity timestamp.  `outcome`
resolves the start attempt and `waitOutcome` the pool's waiting branch. -/
def get_connection (cfg : ManagerConfig) (ms : ManagerState) (id : String)
    (outcome : Bool) (waitOutcome : Bool) (now : Nat) :
    ManagerState × Except GatewayError PoolGetResult :=
  match get_status ms id with
  | Except.error e => (ms, Except.error e)
  | Except.ok st =>
    match (if st = ServerStatus.stopped then start_server cfg ms id outcome now
      else (ms, Except.ok ())) with
    | (ms1, Except.error e) => (ms1, Except.error e)
    | (ms1, Except.ok _) => checkout_connection ms1 id waitOutcome now

/-- `ServerManager::check_idle_servers` (contributing.md "Idle Timeout"),
with the scheduled `stop_server` calls applied: every Running server whose
idle duration exceeds `idle_timeout` is stopped. -/
def check_idle_servers (cfg : ManagerConfig) (ms : ManagerState) (now : Nat) :
    ManagerState :=
  let idle := (ms.status.filter (fun p =>
    p.2.status = ServerStatus.running ∧
      now - p.2.last_activity > cfg.idle_timeout)).map Prod.fst
  idle.foldl stop_server ms

/-- `ServerManager::update_registry` (contributing.md "Registry Updates"):
swap in the new registry snapshot, then stop every server present in the old
registry but absent from the new one.  Nothing else is touched: added
servers are not started and ids present in both keep their state and
pool. -/
def update_registry (ms : ManagerState) (newReg : ServerRegistry) :
    ManagerState :=
  let removed := ms.registry.ids.filter (fun i => newReg.contains i = false)
  removed.foldl stop_server { ms with registry := newReg }

/-- One operation of the manager's environment: front-end calls, explicit
lifecycle calls, background sweeps, and Watcher registry updates. -/
inductive MOp where
  | opAcquire (id : String) (outcome : Bool) (waitOutcome : Bool) (now : Nat)
  | opStart (id : String) (outcome : Bool) (now : Nat)
  | opStop (id : String)
  | opTouch (id : String) (now : Nat)
  | opIdleSweep (now : Nat)
  | opUpdateRegistry (newReg : ServerRegistry)
deriving Repr

def managerStep (cfg : ManagerConfig) (ms : ManagerState) : MOp → ManagerState
  | MOp.opAcquire id outcome waitOutcome now =>
    (get_connection cfg ms id outcome waitOutcome now).1
  | MOp.opStart id outcome now => (start_server cfg ms id outcome now).1
  | MOp.opStop id => stop_server ms id
  | MOp.opTouch id now => touch ms id now
  | MOp.opIdleSweep now => check_idle_servers cfg ms now
  | MOp.opUpdateRegistry newReg => update_registry ms newReg

/-- The manager state freshly constructed over a registry snapshot: server
states are created lazily, so both maps start empty. -/
def initManager (reg : ServerRegistry) : ManagerState :=
  ⟨reg, [], []⟩

/-- The manager state reached from startup by a sequence of operations. -/
def runManager (cfg : ManagerConfig) (reg : ServerRegistry)
    (ops : List MOp) : ManagerState :=
  ops.foldl (managerStep cfg) (initManager reg)

/-! ### Statistics and HTTP handlers

Embedded from `docs/developer/contributing.md` (`get_stats`) and
`docs/developer/api-endpoints.md` (`list_servers`, `get_server`,
`start_server` handler).  `last_activity` is carried in the per-server stats
because `list_servers` reads it from there. -/

structure ServerStats where
  status : ServerStatus
  started_at : Option Nat
  last_activity : Nat
  request_count : Nat
  error_count : Nat
  uptime : Option Nat
deriving DecidableEq, Repr

structure ManagerStats where
  servers : List (String × ServerStats)
  active_servers : Nat
deriving DecidableEq, Repr

/-- `ServerManager::get_stats`: one `ServerStats` per lazily-created
`ServerState`; `uptime` only for servers with a `started_at`. -/
def get_stats (ms : ManagerState) (now : Nat) : ManagerStats :=
  { servers := ms.status.map (fun p =>
      (p.1,
        { status := p.2.status, started_at := p.2.started_at,
          last_activity := p.2.last_activity,
          request_count := p.2.request_count, error_count := p.2.error_count,
          uptime := p.2.started_at.map (fun t => now - t) }))
    active_servers :=
      (ms.status.filter (fun p => p.2.status = ServerStatus.running)).length }

structure ServerInfo where
  id : String
  display_name : String
  description : Option String
  status : ServerStatus
  tags : List String
  runtime_type : String
  started_at : Option Nat
  last_activity : Option Nat
  request_count : Nat
deriving DecidableEq, Repr

structure ServerDetail where
  id : String
  display_name : String
  description : Option String
  status : ServerStatus
  runtime_type : String
  env : List (String × String)
  tags : List String
  started_at : Option Nat
  last_activity : Option Nat
  request_count : Nat
  uptime_seconds : Option Nat
deriving DecidableEq, Repr

inductive ApiError where
  | notFound (id : String)
  | gateway (e : GatewayError)
deriving DecidableEq, Repr

/-- The `ServerInfo` built by `list_servers` for one registry entry: fields
fall back to Stopped / 0 / absent when no stats entry exists for the id. -/
def mkServerInfo (server : ServerDefinition) (stats : ManagerStats) :
    ServerInfo :=
  let server_stats := lookupKey server.id stats.servers
  { id := server.id
    display_name := server.display_name
    description := server.description
    status := ((server_stats.map ServerStats.status).getD
      ServerStatus.stopped)
    tags := server.tags
    runtime_type := server.runtime.type_name
    started_at := server_stats.bind ServerStats.started_at
    last_activity := server_stats.map ServerStats.last_activity
    request_count := (server_stats.map ServerStats.request_count).getD 0 }

/-- `GET /servers` (`list_servers`): every registry entry passing the
optional tag filter, in registry order. -/
def list_servers (reg : ServerRegistry) (stats : ManagerStats)
    (tagParam : Option String) : List ServerInfo :=
  (reg.all.filter (fun s =>
    match tagParam with
    | none => true
    | some tag => s.tags.contains tag)).map (fun s => mkServerInfo s stats)

/-- `GET /servers/:id` (`get_server`): NotFound when the id is not in the
registry, else the detailed view with the same stats fallbacks as
`list_servers`. -/
def get_server (reg : ServerRegistry) (stats : ManagerStats) (id : String) :
    Except ApiError ServerDetail :=
  match reg.get id with
  | none => Except.error (ApiError.notFound id)
  | some server =>
    let server_stats := lookupKey id stats.servers
    Except.ok
      { id := server.id
        display_name := server.display_name
        description := server.description
        status := ((server_stats.map ServerStats.status).getD
          ServerStatus.stopped)
        runtime_type := server.runtime.type_name
        env := server.env
        tags := server.tags
        started_at := server_stats.bind ServerStats.started_at
        last_activity := server_stats.map ServerStats.last_activity
        request_count := (server_stats.map ServerStats.request_count).getD 0
        uptime_seconds := server_stats.bind ServerStats.uptime }

/-- `POST /servers/:id/start` (`start_server` handler): NotFound when the id
is not in the registry; "already running" without a start when Running; else
start the server through the manager. -/
def start_server_handler (cfg : ManagerConfig) (ms : ManagerState)
    (id : String) (outcome : Bool) (now : Nat) :
    ManagerState × Except GatewayError Unit :=
  if ms.registry.contains id = false then
    (ms, Except.error (GatewayError.serverNotFound id))
  else if ms.statusOf id = ServerStatus.running then (ms, Except.ok ())
  else start_server cfg ms id outcome now

/-! ### Coalesced start attempts

Modelled from the spec: the docs declare `start_server` without a body; §4.5
and §5 require that concurrent `acquire` calls on the same Stopped server id
converge on a single start attempt through per-id mutual exclusion, all
receiving that attempt's outcome.  The model interleaves caller arrivals in
an arbitrary order and counts underlying runtime-adapter start attempts
(process spawns). -/

inductive CallerPhase where
  /-- has not reached the manager yet -/
  | pending
  /-- joined the in-flight start and is awaiting its outcome -/
  | waiting
  /-- received an outcome (`true` = start succeeded) -/
  | finished (outcome : Bool)
deriving DecidableEq, Repr

inductive SfStatus where
  | stopped
  | starting
  | running
deriving DecidableEq, Repr

structure SfState where
  status : SfStatus
  /-- number of underlying runtime-adapter connect / process-spawn attempts -/
  attempts : Nat
  callers : Nat → CallerPhase

/-- Caller `i` reaches the manager: a caller finding the server Stopped
begins the single start attempt; a caller finding it Starting joins the
in-flight attempt; a caller finding it Running acquires without any start
attempt. -/
def sfArrive (s : SfState) (i : Nat) : SfState :=
  match s.status with
  | SfStatus.stopped =>
    { status := SfStatus.starting, attempts := s.attempts + 1,
      callers := fun j => if j = i then CallerPhase.waiting else s.callers j }
  | SfStatus.starting =>
    { s with callers :=
        fun j => if j = i then CallerPhase.waiting else s.callers j }
  | SfStatus.running =>
    { s with callers :=
        fun j => if j = i then CallerPhase.finished true else s.callers j }

/-- The single in-flight start attempt resolves with `outcome`; every waiting
caller receives it, and the server becomes Running on success, Stopped on
failure. -/
def sfResolve (s : SfState) (outcome : Bool) : SfState :=
  { status := if outcome then SfStatus.running else SfStatus.stopped
    attempts := s.attempts
    callers := fun j =>
      match s.callers j with
      | CallerPhase.waiting => CallerPhase.finished outcome
      | c => c }

/-- All callers of `order` arrive, in that order. -/
def sfArriveAll : List Nat → SfState → SfState
  | [], s => s
  | i :: rest, s => sfArriveAll rest (sfArrive s i)

/-- A Stopped server with no callers yet and no start attempts made. -/
def sfInit : SfState :=
  { status := SfStatus.stopped, attempts := 0,
    callers := fun _ => CallerPhase.pending }

/-! ### Properties named by the claims -/

/-- A server id that is Stopped with no pool entry. -/
def StoppedClean (id : String) (ms : ManagerState) : Prop :=
  ms.statusOf id = ServerStatus.stopped ∧
    lookupKey id ms.connections = none

/-- The invariant of claim C5: a Stopped server holds no live pooled
connections. -/
def PoolsDrainedWhenStopped (ms : ManagerState) : Prop :=
  ∀ id, ms.statusOf id = ServerStatus.stopped → ms.poolConns id = 0

/-! ### Concrete inputs used by witnesses and counterexamples -/

def lpRuntime : RawRuntime :=
  { rtype := "local-process", command := some "echo-tool", args := [],
    url := none }

def mkEntry (i : String) : RawEntry :=
  { id := some i, display_name := none, description := none,
    runtime := some lpRuntime, env := [], tags := [] }

/-- The malformed-catalog scenario from the docs: duplicate id `x`. -/
def dupCatalog : List RawEntry := [mkEntry "x", mkEntry "x"]

/-- The quick-start scenario catalog: one local-process `echo` server. -/
def echoCatalog : List RawEntry := [mkEntry "echo"]

def requestResponseOverlap : McpMessage :=
  { jsonrpc := "2.0", id := some "1", method := some "tools/list",
    params := none, result := some "ok", error := none }

def emptyEnvelope : McpMessage :=
  { jsonrpc := "2.0", id := none, method := none, params := none,
    result := none, error := none }

/-- A gateway configuration with the documented defaults. -/
def cfg0 : ManagerConfig :=
  { idle_timeout := 300, health_check_interval := 30,
    max_connections_per_server := 10, request_timeout := 30 }

def regEcho : ServerRegistry := ServerRegistry.ofEntries echoCatalog

/-- A running server state used by the reload counterexample. -/
def runningSt : ServerState :=
  { status := ServerStatus.running, started_at := some 10,
    last_activity := 50, request_count := 3, error_count := 0 }

def regABC : ServerRegistry :=
  ServerRegistry.ofEntries [mkEntry "a", mkEntry "b", mkEntry "c"]

def regBCD : ServerRegistry :=
  ServerRegistry.ofEntries [mkEntry "b", mkEntry "c", mkEntry "d"]

/-- A manager over `{a, b, c}` with `a` and `b` running. -/
def msABC : ManagerState :=
  { registry := regABC,
    status := [("a", runningSt), ("b", runningSt)],
    connections := [("a", ⟨1, [0], 10⟩), ("b", ⟨1, [0], 10⟩)] }

/-! ### Lemmas about the association-list maps -/

theorem lookupKey_updKey {V : Type} (k k' : String) (f : V → V)
    (l : List (String × V)) :
    lookupKey k' (updKey k f l) =
      if k = k' then (lookupKey k' l).map f else lookupKey k' l := by
  induction l with
  | nil => simp [lookupKey, updKey]
  | cons p l ih =>
    by_cases hk : p.1 = k
    · by_cases hk' : p.1 = k'
      · have hkk : k = k' := hk ▸ hk'
        rw [updKey, if_pos hk, lookupKey, if_pos hk', if_pos hkk,
          lookupKey, if_pos hk']
        rfl
      · have hkk : ¬ k = k' := fun h => hk' (h ▸ hk)
        rw [updKey, if_pos hk, lookupKey, if_neg hk', ih, if_neg hkk,
          if_neg hkk, lookupKey, if_neg hk']
    · by_cases hk' : p.1 = k'
      · have hkk : ¬ k = k' := fun h => hk (h ▸ hk')
        rw [updKey, if_neg hk, lookupKey, if_pos hk', if_neg hkk,
          lookupKey, if_pos hk']
      · rw [updKey, if_neg hk, lookupKey, if_neg hk', ih]
        by_cases hkk : k = k'
        · rw [if_pos hkk, if_pos hkk, lookupKey, if_neg hk']
        · rw [if_neg hkk, if_neg hkk, lookupKey, if_neg hk']

theorem lookupKey_removeKey {V : Type} (k k' : String)
    (l : List (String × V)) :
    lookupKey k' (removeKey k l) =
      if k = k' then none else lookupKey k' l := by
  induction l with
  | nil => simp [lookupKey, removeKey]
  | cons p l ih =>
    by_cases hk : p.1 = k
    · by_cases hk' : p.1 = k'
      · have hkk : k = k' := hk ▸ hk'
        rw [removeKey, if_pos hk, ih, if_pos hkk, if_pos hkk]
      · have hkk : ¬ k = k' := fun h => hk' (h ▸ hk)
        rw [removeKey, if_pos hk, ih, if_neg hkk, if_neg hkk,
          lookupKey, if_neg hk']
    · by_cases hk' : p.1 = k'
      · have hkk : ¬ k = k' := fun h => hk (h ▸ hk')
        rw [removeKey, if_neg hk, lookupKey, if_pos hk', if_neg hkk,
          lookupKey, if_pos hk']
      · rw [removeKey, if_neg hk, lookupKey, if_neg hk', ih]
        by_cases hkk : k = k'
        · rw [if_pos hkk, if_pos hkk]
        · rw [if_neg hkk, if_neg hkk, lookupKey, if_neg hk']

theorem lookupKey_append_of_none {V : Type} {k : String}
    {l : List (String × V)} (h : lookupKey k l = none)
    (l' : List (String × V)) :
    lookupKey k (l ++ l') = lookupKey k l' := by
  induction l with
  | nil => simp
  | cons p l ih =>
    by_cases hk : p.1 = k
    · rw [lookupKey, if_pos hk] at h
      exact absurd h (by simp)
    · rw [lookupKey, if_neg hk] at h
      rw [List.cons_append, lookupKey, if_neg hk]
      exact ih h

theorem lookupKey_append_of_some {V : Type} {k : String} {v : V}
    {l : List (String × V)} (h : lookupKey k l = some v)
    (l' : List (String × V)) :
    lookupKey k (l ++ l') = some v := by
  induction l with
  | nil => rw [lookupKey] at h; exact absurd h (by simp)
  | cons p l ih =>
    by_cases hk : p.1 = k
    · rw [lookupKey, if_pos hk] at h
      rw [List.cons_append, lookupKey, if_pos hk]
      exact h
    · rw [lookupKey, if_neg hk] at h
      rw [List.cons_append, lookupKey, if_neg hk]
      exact ih h

theorem lookupKey_setKey {V : Type} (k k' : String) (v : V)
    (l : List (String × V)) :
    lookupKey k' (setKey k v l) =
      if k = k' then some v else lookupKey k' l := by
  unfold setKey
  by_cases hh : hasKey k l
  · rw [if_pos hh, lookupKey_updKey]
    by_cases hkk : k = k'
    · subst hkk
      unfold hasKey at hh
      rcases ho : lookupKey k l with _ | w
      · rw [ho] at hh; simp at hh
      · rw [if_pos rfl, if_pos rfl]
        rfl
    · rw [if_neg hkk, if_neg hkk]
  · rw [if_neg hh]
    unfold hasKey at hh
    have hnone : lookupKey k l = none := by
      rcases ho : lookupKey k l with _ | w
      · rfl
      · rw [ho] at hh; simp at hh
    by_cases hkk : k = k'
    · subst hkk
      rw [lookupKey_append_of_none hnone, if_pos rfl, lookupKey, if_pos rfl]
    · rcases ho : lookupKey k' l with _ | w
      · rw [lookupKey_append_of_none ho, if_neg hkk, lookupKey, if_neg hkk,
          lookupKey]
      · rw [lookupKey_append_of_some ho, if_neg hkk]

theorem hasKey_iff_mem {V : Type} (k : String) (l : List (String × V)) :
    hasKey k l = true ↔ k ∈ l.map Prod.fst := by
  unfold hasKey
  induction l with
  | nil => simp [lookupKey]
  | cons p l ih =>
    by_cases hk : p.1 = k
    · simp [lookupKey, hk]
    · have hkk : ¬ k = p.1 := fun h => hk h.symm
      simp [lookupKey, hk, hkk, ih]

theorem lookupKey_some_mem {V : Type} {k : String} {v : V}
    {l : List (String × V)} (h : lookupKey k l = some v) : (k, v) ∈ l := by
  induction l with
  | nil => rw [lookupKey] at h; exact absurd h (by simp)
  | cons p l ih =>
    by_cases hk : p.1 = k
    · rw [lookupKey, if_pos hk] at h
      have hv : p.2 = v := Option.some.inj h
      have hp : p = (k, v) := by
        rcases p with ⟨a, b⟩
        simp only [Prod.mk.injEq]
        exact ⟨hk, hv⟩
      rw [← hp]
      exact List.mem_cons_self p l
    · rw [lookupKey, if_neg hk] at h
      exact List.mem_cons_of_mem p (ih h)

/-! ### Lemmas about the catalog validation checks -/

theorem firstMissingId_eq_none_iff (es : List RawEntry) (n : Nat) :
    firstMissingId es n = none ↔ RuleIds es := by
  induction es generalizing n with
  | nil => simp [firstMissingId, RuleIds]
  | cons e es ih =>
    by_cases hb : e.idBad
    · simp [firstMissingId, hb, RuleIds]
    · simp only [Bool.not_eq_true] at hb
      simp [firstMissingId, hb, RuleIds, ih]

theorem firstDupId_eq_none_iff (l : List String) :
    firstDupId l = none ↔ l.Nodup := by
  induction l with
  | nil => simp [firstDupId]
  | cons x xs ih =>
    by_cases hx : x ∈ xs
    · have hc : xs.contains x = true := by simpa using hx
      simp [firstDupId, hc, hx]
    · have hc : ¬ xs.contains x = true := by simpa using hx
      simp [firstDupId, hc, hx, ih]

theorem firstMissingRuntime_eq_none_iff (es : List RawEntry) :
    firstMissingRuntime es = none ↔ RuleRuntime es := by
  induction es with
  | nil => simp [firstMissingRuntime, RuleRuntime]
  | cons e es ih =>
    rcases hr : e.runtime with _ | r
    · simp [firstMissingRuntime, hr, RuleRuntime]
    · simp [firstMissingRuntime, hr, RuleRuntime, ih]

theorem firstUnknownType_eq_none_iff (es : List RawEntry) :
    firstUnknownType es = none ↔ RuleKnownType es := by
  induction es with
  | nil => simp [firstUnknownType, RuleKnownType]
  | cons e es ih =>
    rcases hr : e.runtime with _ | r
    · simp [firstUnknownType, hr, RuleKnownType, ih]
    · by_cases hk : r.rtype ∈ recognizedTypes
      · have hc : recognizedTypes.contains r.rtype = true := by simpa using hk
        simp [firstUnknownType, hr, hc, hk, RuleKnownType, ih]
      · have hc : ¬ recognizedTypes.contains r.rtype = true := by simpa using hk
        simp [firstUnknownType, hr, hc, hk, RuleKnownType]

/-! ### Claim C2 — catalog validation order and all-or-nothing loading -/

/-- Claim C2: `load` applies the validation rules in the fixed order
(a) syntax, (b) non-empty ids, (c) unique ids, (d) runtime present,
(e) recognized runtime type; the first failing rule determines the reported
error regardless of later rules; a passing catalog is applied in its
entirety; and after any failed load the previously active registry is
exactly the one in effect before. -/
theorem c2_load_validation_order_and_atomicity :
    (load none = Except.error LoadError.parseError) ∧
    (∀ es : List RawEntry, ¬ RuleIds es →
      ∃ n, load (some es) = Except.error (LoadError.missingId n)) ∧
    (∀ es : List RawEntry, RuleIds es → ¬ RuleUnique es →
      ∃ i, load (some es) = Except.error (LoadError.duplicateId i)) ∧
    (∀ es : List RawEntry, RuleIds es → RuleUnique es → ¬ RuleRuntime es →
      ∃ i, load (some es) = Except.error (LoadError.missingRuntime i)) ∧
    (∀ es : List RawEntry, RuleIds es → RuleUnique es → RuleRuntime es →
      ¬ RuleKnownType es →
      ∃ i t, load (some es) =
        Except.error (LoadError.unknownRuntimeType i t)) ∧
    (∀ es : List RawEntry, RuleIds es → RuleUnique es → RuleRuntime es →
      RuleKnownType es →
      load (some es) = Except.ok (ServerRegistry.ofEntries es)) ∧
    (∀ (current : ServerRegistry) (src : Option (List RawEntry))
        (e : LoadError), load src = Except.error e →
      reloadRegistry current src = (current, some e)) := by
  refine ⟨rfl, ?_, ?_, ?_, ?_, ?_, ?_⟩
  · intro es h
    rcases ho : firstMissingId es 0 with _ | n
    · exact absurd ((firstMissingId_eq_none_iff es 0).mp ho) h
    · exact ⟨n, by simp [load, ho]⟩
  · intro es hb h
    have h1 := (firstMissingId_eq_none_iff es 0).mpr hb
    rcases ho : firstDupId (es.map RawEntry.entryId) with _ | i
    · exact absurd ((firstDupId_eq_none_iff _).mp ho) h
    · exact ⟨i, by simp [load, h1, ho]⟩
  · intro es hb hu h
    have h1 := (firstMissingId_eq_none_iff es 0).mpr hb
    have h2 := (firstDupId_eq_none_iff (es.map RawEntry.entryId)).mpr hu
    rcases ho : firstMissingRuntime es with _ | i
    · exact absurd ((firstMissingRuntime_eq_none_iff es).mp ho) h
    · exact ⟨i, by simp [load, h1, h2, ho]⟩
  · intro es hb hu hr h
    have h1 := (firstMissingId_eq_none_iff es 0).mpr hb
    have h2 := (firstDupId_eq_none_iff (es.map RawEntry.entryId)).mpr hu
    have h3 := (firstMissingRuntime_eq_none_iff es).mpr hr
    rcases ho : firstUnknownType es with _ | p
    · exact absurd ((firstUnknownType_eq_none_iff es).mp ho) h
    · exact ⟨p.1, p.2, by simp [load, h1, h2, h3, ho]⟩
  · intro es hb hu hr hk
    have h1 := (firstMissingId_eq_none_iff es 0).mpr hb
    have h2 := (firstDupId_eq_none_iff (es.map RawEntry.entryId)).mpr hu
    have h3 := (firstMissingRuntime_eq_none_iff es).mpr hr
    have h4 := (firstUnknownType_eq_none_iff es).mpr hk
    simp [load, h1, h2, h3, h4]
  · intro current src e h
    simp [reloadRegistry, h]

/-- Witness for C2: the docs' duplicate-id scenario is rejected and leaves
the previously active registry untouched, while the echo catalog loads
whole. -/
theorem c2_load_validation_witness :
    load (some echoCatalog) =
      Except.ok (ServerRegistry.ofEntries echoCatalog) ∧
    reloadRegistry (ServerRegistry.ofEntries echoCatalog) (some dupCatalog) =
      (ServerRegistry.ofEntries echoCatalog,
        some (LoadError.duplicateId "x")) := by
  have h := c2_load_validation_order_and_atomicity
  exact ⟨h.2.2.2.2.2.1 echoCatalog (by decide) (by decide) (by decide)
      (by decide),
    h.2.2.2.2.2.2 _ _ _ (by rfl)⟩

/-! ### Claim C7 — deterministic, insertion-ordered listing -/

/-- Claim C7: for every registry built by a successful `load`, `all()`
returns the server definitions in the insertion order of the source catalog
(one definition per catalog entry, ids in catalog order). -/
theorem c7_registry_all_insertion_order (es : List RawEntry)
    (reg : ServerRegistry) (h : load (some es) = Except.ok reg) :
    reg.all = es.map RawEntry.toDef ∧
    reg.ids = es.map RawEntry.entryId := by
  have hreg : reg = ServerRegistry.ofEntries es := by
    unfold load at h
    repeat' split at h
    all_goals simp_all
  constructor <;>
    simp [hreg, ServerRegistry.all, ServerRegistry.ids,
      ServerRegistry.ofEntries, List.map_map, Function.comp]

/-- Witness for C7 at the echo catalog. -/
theorem c7_registry_all_witness :
    (ServerRegistry.ofEntries echoCatalog).all =
      echoCatalog.map RawEntry.toDef ∧
    (ServerRegistry.ofEntries echoCatalog).ids =
      echoCatalog.map RawEntry.entryId :=
  c7_registry_all_insertion_order echoCatalog _ rfl

/-! ### Claim C8 — local-process close is not graceful-first -/

/-- Claim C8 (code bug evidence): the documented lifecycle says `close`
signals graceful termination first (SIGTERM, wait, then SIGKILL if needed),
but the `LocalProcessConnection::close` body force-kills the child as its
first and only action. -/
theorem c8_close_force_kills_first :
    LocalProcessConnection.close ⟨4242⟩ = [ProcAction.sigkill] ∧
    (LocalProcessConnection.close ⟨4242⟩).head? = some ProcAction.sigkill ∧
    documentedStopSequence.head? = some ProcAction.sigterm ∧
    ProcAction.sigkill ≠ ProcAction.sigterm := by
  refine ⟨rfl, rfl, rfl, by decide⟩

/-! ### Claim C9 — message shape predicates -/

/-- Claim C9 counterexample: the claim that every message satisfies exactly
one shape fails — a message with method, id and result present satisfies
two shapes, and a message with none of method/result/error satisfies
none. -/
theorem c9_shape_counterexample :
    emptyEnvelope.shapeCount = 0 ∧ requestResponseOverlap.shapeCount = 2 := by
  constructor <;> rfl

/-- Claim C9 (amended): for every message in which exactly one of
{method present, result-or-error present} holds, exactly one of the three
shape predicates holds. -/
theorem c9_exactly_one_shape (m : McpMessage)
    (h : (m.method.isSome = true ∧ m.result = none ∧ m.error = none) ∨
      (m.method = none ∧ (m.result.isSome = true ∨ m.error.isSome = true))) :
    m.shapeCount = 1 := by
  rcases m with ⟨v, i, mth, prm, res, err⟩
  rcases h with ⟨h1, h2, h3⟩ | ⟨h1, h2⟩
  · subst h2; subst h3
    cases mth <;> cases i <;>
      simp_all [McpMessage.shapeCount, McpMessage.is_request,
        McpMessage.is_response, McpMessage.is_notification]
  · subst h1
    cases i <;> cases res <;> cases err <;>
      simp_all [McpMessage.shapeCount, McpMessage.is_request,
        McpMessage.is_response, McpMessage.is_notification]

/-- Witness for C9 at a notification-shaped message. -/
theorem c9_exactly_one_shape_witness :
    ({ jsonrpc := "2.0", id := none, method := some "ping", params := none,
       result := none, error := none } : McpMessage).shapeCount = 1 :=
  c9_exactly_one_shape _ (Or.inl ⟨rfl, rfl, rfl⟩)

/-! ### Claim C4 — connection-pool bound -/

theorem poolStep_bound (max : Nat) (p : CPool) (op : PoolOp)
    (h1 : p.max_size = max) (h2 : p.connections ≤ max) :
    (p.step op).max_size = max ∧ (p.step op).connections ≤ max := by
  cases op with
  | opGet w =>
    simp only [CPool.step, CPool.get]
    rcases ha : p.available with _ | ⟨i, rest⟩
    · by_cases hc : p.connections < p.max_size
      · simp only [hc, if_pos]
        constructor
        · exact h1
        · have : p.connections < max := h1 ▸ hc
          omega
      · have hc' : ¬ p.connections < max := h1 ▸ hc
        cases w <;> simp [hc, hc', h1, h2]
    · simp [h1, h2]
  | opRelease idx broken =>
    simp only [CPool.step, CPool.release]
    cases broken <;> simp [h1, h2]
    omega

theorem runPool_bound_aux (max : Nat) (ops : List PoolOp) (p : CPool)
    (h1 : p.max_size = max) (h2 : p.connections ≤ max) :
    (ops.foldl CPool.step p).max_size = max ∧
    (ops.foldl CPool.step p).connections ≤ max := by
  induction ops generalizing p with
  | nil => exact ⟨h1, h2⟩
  | cons op ops ih =>
    have h := poolStep_bound max p op h1 h2
    exact ih _ h.1 h.2

/-- Claim C4: over any sequence of pool operations the number of live
connections never exceeds `max_connections_per_server`, and an acquire
issued when the pool is at the cap with no available connection either
blocks until a release or fails PoolExhausted — it never creates an extra
connection (the pool state is unchanged). -/
theorem c4_pool_never_exceeds_cap :
    (∀ (max : Nat) (ops : List PoolOp),
      (runPool max ops).connections ≤ max) ∧
    (∀ (p : CPool) (w : Bool), p.available = [] →
      ¬ p.connections < p.max_size →
      ((p.get w).1 = PoolGetResult.waitedReused ∨
        (p.get w).1 = PoolGetResult.exhausted) ∧ (p.get w).2 = p) := by
  constructor
  · intro max ops
    exact (runPool_bound_aux max ops (CPool.empty max) rfl (Nat.zero_le _)).2
  · intro p w ha hc
    cases w <;> simp [CPool.get, ha, hc]

/-- Witness for C4: a pool of capacity 2 saturated by three acquires holds
at most 2 connections, and an acquire at the cap leaves the pool
unchanged. -/
theorem c4_pool_never_exceeds_cap_witness :
    (runPool 2 [PoolOp.opGet true, PoolOp.opGet true,
      PoolOp.opGet true]).connections ≤ 2 ∧
    (((CPool.mk 2 [] 2).get false).1 = PoolGetResult.waitedReused ∨
      ((CPool.mk 2 [] 2).get false).1 = PoolGetResult.exhausted) ∧
    ((CPool.mk 2 [] 2).get false).2 = CPool.mk 2 [] 2 := by
  have h := c4_pool_never_exceeds_cap
  exact ⟨h.1 2 _, (h.2 ⟨2, [], 2⟩ false rfl (by decide)).1,
    (h.2 ⟨2, [], 2⟩ false rfl (by decide)).2⟩

/-! ### Claim C1 — concurrent acquires coalesce into one start attempt -/

theorem sfArriveAll_from_starting (order : List Nat) (s : SfState)
    (h : s.status = SfStatus.starting) :
    (sfArriveAll order s).status = SfStatus.starting ∧
    (sfArriveAll order s).attempts = s.attempts ∧
    (∀ j, s.callers j = CallerPhase.waiting →
      (sfArriveAll order s).callers j = CallerPhase.waiting) ∧
    (∀ j ∈ order, (sfArriveAll order s).callers j = CallerPhase.waiting) := by
  induction order generalizing s with
  | nil => exact ⟨h, rfl, fun j hj => hj, by simp⟩
  | cons i rest ih =>
    have hs' : (sfArrive s i).status = SfStatus.starting := by
      simp [sfArrive, h]
    have hat : (sfArrive s i).attempts = s.attempts := by
      simp [sfArrive, h]
    have hcal : ∀ j, (j = i ∨ s.callers j = CallerPhase.waiting) →
        (sfArrive s i).callers j = CallerPhase.waiting := by
      intro j hj
      rcases hj with rfl | hj
      · simp [sfArrive, h]
      · by_cases hji : j = i <;> simp [sfArrive, h, hji, hj]
    obtain ⟨g1, g2, g3, g4⟩ := ih (sfArrive s i) hs'
    refine ⟨g1, by rw [sfArriveAll, g2, hat], ?_, ?_⟩
    · intro j hj
      exact g3 j (hcal j (Or.inr hj))
    · intro j hj
      rcases List.mem_cons.mp hj with rfl | hj
      · exact g3 j (hcal j (Or.inl rfl))
      · exact g4 j hj

/-- Claim C1: for every interleaving of concurrent `acquire` callers on a
Stopped server id, exactly one underlying start attempt occurs, the server
ends Running or Stopped according to that attempt's outcome, and every
caller receives the outcome of that single attempt. -/
theorem c1_single_start_attempt (order : List Nat) (outcome : Bool)
    (hne : order ≠ []) :
    (sfResolve (sfArriveAll order sfInit) outcome).attempts = 1 ∧
    (sfResolve (sfArriveAll order sfInit) outcome).status =
      (if outcome then SfStatus.running else SfStatus.stopped) ∧
    ∀ i ∈ order,
      (sfResolve (sfArriveAll order sfInit) outcome).callers i =
        CallerPhase.finished outcome := by
  rcases order with _ | ⟨i0, rest⟩
  · exact absurd rfl hne
  · have hs' : (sfArrive sfInit i0).status = SfStatus.starting := by
      simp [sfArrive, sfInit]
    have hat : (sfArrive sfInit i0).attempts = 1 := by
      simp [sfArrive, sfInit]
    have hc0 : (sfArrive sfInit i0).callers i0 = CallerPhase.waiting := by
      simp [sfArrive, sfInit]
    obtain ⟨g1, g2, g3, g4⟩ :=
      sfArriveAll_from_starting rest (sfArrive sfInit i0) hs'
    have harr : sfArriveAll (i0 :: rest) sfInit =
        sfArriveAll rest (sfArrive sfInit i0) := rfl
    refine ⟨?_, ?_, ?_⟩
    · show (sfResolve _ outcome).attempts = 1
      rw [sfResolve]
      rw [harr, g2, hat]
    · rw [sfResolve]
    · intro i hi
      have hw : (sfArriveAll (i0 :: rest) sfInit).callers i =
          CallerPhase.waiting := by
        rw [harr]
        rcases List.mem_cons.mp hi with rfl | hi
        · exact g3 i hc0
        · exact g4 i hi
      show (sfResolve _ outcome).callers i = CallerPhase.finished outcome
      rw [sfResolve]
      simp [hw]

/-- Witness for C1: three concurrent callers on a stopped server, failing
start: one attempt, all observe the failure. -/
theorem c1_single_start_attempt_witness :
    (sfResolve (sfArriveAll [0, 1, 2] sfInit) false).attempts = 1 ∧
    (sfResolve (sfArriveAll [0, 1, 2] sfInit) false).callers 1 =
      CallerPhase.finished false := by
  have h := c1_single_start_attempt [0, 1, 2] false (by simp)
  exact ⟨h.1, h.2.2 1 (by simp)⟩

/-! ### Lemmas about the lifecycle manager -/

/-- After `stop_server`, the server's observed status is Stopped (whether or
not a lazily created state existed). -/
theorem stop_server_self_status (ms : ManagerState) (id : String) :
    (stop_server ms id).statusOf id = ServerStatus.stopped := by
  unfold stop_server ManagerState.statusOf
  simp only [lookupKey_updKey, if_pos rfl]
  rcases lookupKey id ms.status with _ | st <;> simp

/-- After `stop_server`, the server's pool is gone. -/
theorem stop_server_self_conns (ms : ManagerState) (id : String) :
    lookupKey id (stop_server ms id).connections = none := by
  unfold stop_server
  simp [lookupKey_removeKey]

/-- `stop_server` on another id leaves this id's state and pool entries
untouched. -/
theorem stop_server_other (ms : ManagerState) (id j : String) (h : j ≠ id) :
    lookupKey id (stop_server ms j).status = lookupKey id ms.status ∧
    lookupKey id (stop_server ms j).connections =
      lookupKey id ms.connections := by
  unfold stop_server
  constructor
  · simp [lookupKey_updKey, h]
  · simp [lookupKey_removeKey, h]

theorem stop_server_clean (ms : ManagerState) (id : String) :
    StoppedClean id (stop_server ms id) :=
  ⟨stop_server_self_status ms id, stop_server_self_conns ms id⟩

theorem stop_server_preserves_clean (ms : ManagerState) (id j : String)
    (h : StoppedClean id ms) : StoppedClean id (stop_server ms j) := by
  by_cases hj : j = id
  · subst hj
    exact stop_server_clean ms j
  · obtain ⟨h1, h2⟩ := stop_server_other ms id j hj
    constructor
    · unfold ManagerState.statusOf
      rw [h1]
      exact h.1
    · rw [h2]
      exact h.2

theorem foldl_stop_clean (l : List String) (ms : ManagerState)
    (id : String) (h : id ∈ l ∨ StoppedClean id ms) :
    StoppedClean id (l.foldl stop_server ms) := by
  induction l generalizing ms with
  | nil =>
    rcases h with h | h
    · simp at h
    · exact h
  | cons j rest ih =>
    rcases h with h | h
    · rcases List.mem_cons.mp h with rfl | h
      · exact ih _ (Or.inr (stop_server_clean ms id))
      · exact ih _ (Or.inl h)
    · exact ih _ (Or.inr (stop_server_preserves_clean ms id j h))

theorem foldl_stop_untouched (l : List String) (ms : ManagerState)
    (id : String) (h : id ∉ l) :
    lookupKey id (l.foldl stop_server ms).status = lookupKey id ms.status ∧
    lookupKey id (l.foldl stop_server ms).connections =
      lookupKey id ms.connections := by
  induction l generalizing ms with
  | nil => exact ⟨rfl, rfl⟩
  | cons j rest ih =>
    simp only [List.mem_cons, not_or] at h
    have hj : j ≠ id := fun e => h.1 e.symm
    obtain ⟨g1, g2⟩ := ih (stop_server ms j) h.2
    obtain ⟨o1, o2⟩ := stop_server_other ms id j hj
    exact ⟨g1.trans o1, g2.trans o2⟩

theorem foldl_stop_registry (l : List String) (ms : ManagerState) :
    (l.foldl stop_server ms).registry = ms.registry := by
  induction l generalizing ms with
  | nil => rfl
  | cons j rest ih => exact ih (stop_server ms j)

/-- `touch` never changes the observed status of any server. -/
theorem touch_statusOf (ms : ManagerState) (j : String) (n : Nat)
    (id : String) : (touch ms j n).statusOf id = ms.statusOf id := by
  unfold touch ManagerState.statusOf
  simp only [lookupKey_updKey]
  by_cases hj : j = id
  · subst hj
    simp only [if_pos rfl]
    rcases lookupKey j ms.status with _ | st <;> simp
  · simp [hj]

/-- A Running server has a lazily created state entry carrying its
`last_activity`. -/
theorem statusOf_running_entry (ms : ManagerState) (id : String)
    (h : ms.statusOf id = ServerStatus.running) :
    ∃ st, lookupKey id ms.status = some st ∧
      st.status = ServerStatus.running ∧
      st.last_activity = ms.lastActivityOf id := by
  unfold ManagerState.statusOf at h
  rcases ho : lookupKey id ms.status with _ | st
  · rw [ho] at h
    simp at h
  · rw [ho] at h
    simp at h
    refine ⟨st, rfl, h, ?_⟩
    unfold ManagerState.lastActivityOf
    rw [ho]
    rfl

theorem clean_poolConns {ms : ManagerState} {id : String}
    (h : lookupKey id ms.connections = none) : ms.poolConns id = 0 := by
  unfold ManagerState.poolConns
  rw [h]
  rfl

theorem stop_server_inv (ms : ManagerState) (j : String)
    (h : PoolsDrainedWhenStopped ms) :
    PoolsDrainedWhenStopped (stop_server ms j) := by
  intro id hs
  by_cases hj : j = id
  · subst hj
    exact clean_poolConns (stop_server_self_conns ms j)
  · obtain ⟨h1, h2⟩ := stop_server_other ms id j hj
    have hstat : ms.statusOf id = ServerStatus.stopped := by
      unfold ManagerState.statusOf at hs ⊢
      rw [h1] at hs
      exact hs
    have := h id hstat
    unfold ManagerState.poolConns at this ⊢
    rw [h2]
    exact this

theorem foldl_stop_inv (l : List String) (ms : ManagerState)
    (h : PoolsDrainedWhenStopped ms) :
    PoolsDrainedWhenStopped (l.foldl stop_server ms) := by
  induction l generalizing ms with
  | nil => exact h
  | cons j rest ih => exact ih _ (stop_server_inv ms j h)

theorem touch_inv (ms : ManagerState) (j : String) (n : Nat)
    (h : PoolsDrainedWhenStopped ms) :
    PoolsDrainedWhenStopped (touch ms j n) := by
  intro id hs
  rw [touch_statusOf] at hs
  exact h id hs

theorem start_server_inv (cfg : ManagerConfig) (ms : ManagerState)
    (id : String) (b : Bool) (now : Nat)
    (h : PoolsDrainedWhenStopped ms) :
    PoolsDrainedWhenStopped (start_server cfg ms id b now).1 := by
  unfold start_server
  split_ifs with h1 h2 h3
  · exact h
  · exact h
  · intro id' hs
    by_cases hid : id = id'
    · subst hid
      exfalso
      unfold ManagerState.statusOf at hs
      rw [lookupKey_setKey, if_pos rfl] at hs
      simp at hs
    · unfold ManagerState.statusOf at hs
      rw [lookupKey_setKey, if_neg hid] at hs
      unfold ManagerState.poolConns
      rw [lookupKey_setKey, if_neg hid]
      exact h id' hs
  · intro id' hs
    by_cases hid : id = id'
    · subst hid
      have hstop : ms.statusOf id = ServerStatus.stopped := not_ne_iff.mp h2
      exact h id hstop
    · unfold ManagerState.statusOf at hs
      rw [lookupKey_setKey, if_neg hid] at hs
      exact h id' hs

theorem start_server_ok_not_stopped (cfg : ManagerConfig) (ms : ManagerState)
    (id : String) (b : Bool) (now : Nat)
    (h : (start_server cfg ms id b now).2 = Except.ok ()) :
    (start_server cfg ms id b now).1.statusOf id ≠ ServerStatus.stopped := by
  unfold start_server at h ⊢
  split_ifs at h ⊢ with h1 h2 h3
  all_goals
    simp_all [ManagerState.statusOf, lookupKey_setKey]

theorem set_conns_inv (ms : ManagerState) (id : String) (p : CPool)
    (hrun : ms.statusOf id ≠ ServerStatus.stopped)
    (h : PoolsDrainedWhenStopped ms) :
    PoolsDrainedWhenStopped
      { ms with connections := setKey id p ms.connections } := by
  intro id' hs
  have hst : ms.statusOf id' = ServerStatus.stopped := hs
  by_cases hid : id = id'
  · subst hid
    exact absurd hst hrun
  · unfold ManagerState.poolConns
    rw [lookupKey_setKey, if_neg hid]
    exact h id' hst

theorem checkout_connection_inv (ms1 : ManagerState) (id : String)
    (w : Bool) (now : Nat)
    (hrun : ms1.statusOf id ≠ ServerStatus.stopped)
    (h : PoolsDrainedWhenStopped ms1) :
    PoolsDrainedWhenStopped (checkout_connection ms1 id w now).1 := by
  unfold checkout_connection
  rcases hl : lookupKey id ms1.connections with _ | pl
  · exact h
  · rcases hres : (pl.get w).1 with i | i | _ | _ <;> simp only [hres]
    · exact touch_inv _ id now (set_conns_inv ms1 id _ hrun h)
    · exact touch_inv _ id now (set_conns_inv ms1 id _ hrun h)
    · exact touch_inv _ id now (set_conns_inv ms1 id _ hrun h)
    · exact set_conns_inv ms1 id _ hrun h

theorem get_connection_inv (cfg : ManagerConfig) (ms : ManagerState)
    (id : String) (b w : Bool) (now : Nat)
    (h : PoolsDrainedWhenStopped ms) :
    PoolsDrainedWhenStopped (get_connection cfg ms id b w now).1 := by
  unfold get_connection
  rcases hg : get_status ms id with e | st
  · simp only [hg]
    exact h
  · have hc : ms.registry.contains id = true := by
      by_contra hcc
      unfold get_status at hg
      rw [if_neg hcc] at hg
      exact Except.noConfusion hg
    have hst : st = ms.statusOf id := by
      unfold get_status at hg
      rw [if_pos hc] at hg
      exact (Except.ok.inj hg).symm
    simp only [hg]
    by_cases hss : st = ServerStatus.stopped
    · rw [if_pos hss]
      rcases hr : start_server cfg ms id b now with ⟨ms1, r⟩
      have hinv1 : PoolsDrainedWhenStopped ms1 := by
        have hh := start_server_inv cfg ms id b now h
        rw [hr] at hh
        exact hh
      rcases r with e | u
      · exact hinv1
      · have hok : (start_server cfg ms id b now).2 = Except.ok () := by
          rw [hr]
        have hrun : ms1.statusOf id ≠ ServerStatus.stopped := by
          have hh := start_server_ok_not_stopped cfg ms id b now hok
          rw [hr] at hh
          exact hh
        exact checkout_connection_inv ms1 id w now hrun hinv1
    · rw [if_neg hss]
      have hrun : ms.statusOf id ≠ ServerStatus.stopped := by
        rw [← hst]
        exact hss
      exact checkout_connection_inv ms id w now hrun h

theorem managerStep_inv (cfg : ManagerConfig) (ms : ManagerState) (op : MOp)
    (h : PoolsDrainedWhenStopped ms) :
    PoolsDrainedWhenStopped (managerStep cfg ms op) := by
  cases op with
  | opAcquire id b w now => exact get_connection_inv cfg ms id b w now h
  | opStart id b now => exact start_server_inv cfg ms id b now h
  | opStop id => exact stop_server_inv ms id h
  | opTouch id now => exact touch_inv ms id now h
  | opIdleSweep now =>
    unfold managerStep check_idle_servers
    exact foldl_stop_inv _ ms h
  | opUpdateRegistry newReg =>
    unfold managerStep update_registry
    apply foldl_stop_inv
    intro id hs
    exact h id hs

/-- Every state the manager reaches from startup keeps Stopped servers free
of pooled connections. -/
theorem runManager_inv (cfg : ManagerConfig) (reg : ServerRegistry)
    (ops : List MOp) : PoolsDrainedWhenStopped (runManager cfg reg ops) := by
  unfold runManager
  have h0 : PoolsDrainedWhenStopped (initManager reg) := by
    intro id _
    rfl
  generalize initManager reg = ms0 at h0 ⊢
  induction ops generalizing ms0 with
  | nil => exact h0
  | cons op ops ih => exact ih _ (managerStep_inv cfg ms0 op h0)

/-! ### Claim C5 — idle sweep and the drained-when-stopped invariant -/

/-- Claim C5: every Running server whose idle time exceeds `idle_timeout`
is Stopped with an empty pool by the next idle sweep tick, and no reachable
manager state has a Stopped server still holding a live pooled connection
(the claim's own equivalent formulation of "connections closed before the
state reports Stopped"). -/
theorem c5_idle_sweep_stops_and_drains :
    (∀ (cfg : ManagerConfig) (ms : ManagerState) (id : String) (now : Nat),
      ms.statusOf id = ServerStatus.running →
      now - ms.lastActivityOf id > cfg.idle_timeout →
      (check_idle_servers cfg ms now).statusOf id = ServerStatus.stopped ∧
      (check_idle_servers cfg ms now).poolConns id = 0) ∧
    (∀ (cfg : ManagerConfig) (reg : ServerRegistry) (ops : List MOp)
        (id : String),
      (runManager cfg reg ops).statusOf id = ServerStatus.stopped →
      (runManager cfg reg ops).poolConns id = 0) := by
  constructor
  · intro cfg ms id now h1 h2
    obtain ⟨st, hlk, hrun, hact⟩ := statusOf_running_entry ms id h1
    have hmem : id ∈ (ms.status.filter (fun p =>
        p.2.status = ServerStatus.running ∧
          now - p.2.last_activity > cfg.idle_timeout)).map Prod.fst := by
      refine List.mem_map.mpr ⟨(id, st), ?_, rfl⟩
      refine List.mem_filter.mpr ⟨lookupKey_some_mem hlk, ?_⟩
      simp only [decide_eq_true_eq]
      exact ⟨hrun, by rw [hact]; exact h2⟩
    have hclean := foldl_stop_clean _ ms id (Or.inl hmem)
    exact ⟨hclean.1, clean_poolConns hclean.2⟩
  · intro cfg reg ops id h
    exact runManager_inv cfg reg ops id h

/-- Witness for C5: the echo server started at time 0 and idle at time 1000
is stopped with an empty pool by the sweep; an explicitly stopped server
holds no pooled connections. -/
theorem c5_idle_sweep_witness :
    (check_idle_servers cfg0 (runManager cfg0 regEcho
        [MOp.opStart "echo" true 0]) 1000).statusOf "echo" =
      ServerStatus.stopped ∧
    (check_idle_servers cfg0 (runManager cfg0 regEcho
        [MOp.opStart "echo" true 0]) 1000).poolConns "echo" = 0 ∧
    (runManager cfg0 regEcho [MOp.opStart "echo" true 0,
        MOp.opStop "echo"]).poolConns "echo" = 0 := by
  have h := c5_idle_sweep_stops_and_drains
  exact ⟨(h.1 cfg0 _ "echo" 1000 (by decide) (by decide)).1,
    (h.1 cfg0 _ "echo" 1000 (by decide) (by decide)).2,
    h.2 cfg0 regEcho _ "echo" (by decide)⟩

/-! ### Claim C3 — reload reconciliation -/

/-- Claim C3 counterexample: after the reload `{a,b,c} → {b,c,d}` the
removed server `a` is stopped and delisted, but its ServerState entry is
not removed from the manager's status map, contradicting "its state
removed". -/
theorem c3_state_not_removed_counterexample :
    hasKey "a" (update_registry msABC regBCD).status = true ∧
    (update_registry msABC regBCD).statusOf "a" = ServerStatus.stopped ∧
    regBCD.contains "a" = false := by
  refine ⟨by rfl, by rfl, by rfl⟩

/-- Claim C3 (amended): on reload, a server in the old registry but not the
new one is stopped (status Stopped, pool closed and removed) though its
ServerState entry is retained; a server only in the new registry is listed
but not started (its state and pool entries are exactly as before, i.e.
absent unless previously referenced); and a server in the new registry
keeps its state and pool entries untouched even if its definition content
changed. -/
theorem c3_reload_reconciliation (ms : ManagerState)
    (newReg : ServerRegistry) (id : String) :
    ((update_registry ms newReg).registry = newReg) ∧
    (ms.registry.contains id = true → newReg.contains id = false →
      (update_registry ms newReg).statusOf id = ServerStatus.stopped ∧
      lookupKey id (update_registry ms newReg).connections = none) ∧
    (ms.registry.contains id = false →
      lookupKey id (update_registry ms newReg).status =
        lookupKey id ms.status ∧
      lookupKey id (update_registry ms newReg).connections =
        lookupKey id ms.connections) ∧
    (newReg.contains id = true →
      lookupKey id (update_registry ms newReg).status =
        lookupKey id ms.status ∧
      lookupKey id (update_registry ms newReg).connections =
        lookupKey id ms.connections) := by
  unfold update_registry
  refine ⟨?_, ?_, ?_, ?_⟩
  · rw [foldl_stop_registry]
  · intro hold hnew
    have hmem : id ∈ ms.registry.ids.filter
        (fun i => newReg.contains i = false) := by
      refine List.mem_filter.mpr ⟨?_, by simp [hnew]⟩
      exact (hasKey_iff_mem id ms.registry.servers).mp hold
    have hclean := foldl_stop_clean _ { ms with registry := newReg } id
      (Or.inl hmem)
    exact ⟨hclean.1, hclean.2⟩
  · intro hold
    have hnm : id ∉ ms.registry.ids.filter
        (fun i => newReg.contains i = false) := by
      intro hmem
      have hin := (List.mem_filter.mp hmem).1
      have h2 := (hasKey_iff_mem id ms.registry.servers).mpr hin
      unfold ServerRegistry.contains at hold
      rw [hold] at h2
      exact Bool.noConfusion h2
    exact foldl_stop_untouched _ _ id hnm
  · intro hnew
    have hnm : id ∉ ms.registry.ids.filter
        (fun i => newReg.contains i = false) := by
      intro hmem
      have hp := (List.mem_filter.mp hmem).2
      simp [hnew] at hp
    exact foldl_stop_untouched _ _ id hnm

/-- Witness for C3 at the `{a,b,c} → {b,c,d}` instance: `a` stopped with
pool removed, `d` untouched and unstarted, `b` keeps its pool. -/
theorem c3_reload_reconciliation_witness :
    (update_registry msABC regBCD).registry = regBCD ∧
    (update_registry msABC regBCD).statusOf "a" = ServerStatus.stopped ∧
    lookupKey "a" (update_registry msABC regBCD).connections = none ∧
    lookupKey "d" (update_registry msABC regBCD).status =
      lookupKey "d" msABC.status ∧
    lookupKey "b" (update_registry msABC regBCD).connections =
      lookupKey "b" msABC.connections := by
  have ha := c3_reload_reconciliation msABC regBCD "a"
  have hd := c3_reload_reconciliation msABC regBCD "d"
  have hb := c3_reload_reconciliation msABC regBCD "b"
  exact ⟨ha.1, (ha.2.1 (by rfl) (by rfl)).1, (ha.2.1 (by rfl) (by rfl)).2,
    (hd.2.2.1 (by rfl)).1, (hb.2.2.2 (by rfl)).2⟩

/-! ### Claim C6 — unknown ids -/

/-- Claim C6: for a server id absent from the current registry snapshot,
both `acquire` (`get_connection`) and `start` (the handler and the manager
operation) return NotFound and leave the manager state exactly
unchanged. -/
theorem c6_unknown_id_not_found (cfg : ManagerConfig) (ms : ManagerState)
    (id : String) (b w : Bool) (now : Nat)
    (h : ms.registry.contains id = false) :
    get_connection cfg ms id b w now =
      (ms, Except.error (GatewayError.serverNotFound id)) ∧
    start_server_handler cfg ms id b now =
      (ms, Except.error (GatewayError.serverNotFound id)) ∧
    start_server cfg ms id b now =
      (ms, Except.error (GatewayError.serverNotFound id)) := by
  have hg : get_status ms id =
      Except.error (GatewayError.serverNotFound id) := by
    unfold get_status
    rw [if_neg (by simp [h])]
  refine ⟨?_, ?_, ?_⟩
  · unfold get_connection
    simp [hg]
  · unfold start_server_handler
    rw [if_pos h]
  · unfold start_server
    rw [if_pos h]

/-- Witness for C6 at the unknown id `ghost`. -/
theorem c6_unknown_id_witness :
    get_connection cfg0 (initManager regEcho) "ghost" true true 5 =
      (initManager regEcho,
        Except.error (GatewayError.serverNotFound "ghost")) ∧
    start_server_handler cfg0 (initManager regEcho) "ghost" true 5 =
      (initManager regEcho,
        Except.error (GatewayError.serverNotFound "ghost")) := by
  have h := c6_unknown_id_not_found cfg0 (initManager regEcho) "ghost"
    true true 5 (by decide)
  exact ⟨h.1, h.2.1⟩

/-! ### Claim C10 — never-referenced servers in list and get -/

theorem lookupKey_map_val_none {V W : Type} {k : String}
    {l : List (String × V)} (h : lookupKey k l = none)
    (g : String × V → W) :
    lookupKey k (l.map (fun p => (p.1, g p))) = none := by
  induction l with
  | nil => rfl
  | cons p l ih =>
    by_cases hk : p.1 = k
    · rw [lookupKey, if_pos hk] at h
      exact absurd h (by simp)
    · rw [lookupKey, if_neg hk] at h
      simp only [List.map_cons, lookupKey]
      rw [if_neg hk]
      exact ih h

/-- Claim C10: a server present in the registry whose ServerState was never
lazily created is reported by `list_servers` and `get_server` (not omitted,
no failure) with status Stopped, request_count 0, and `started_at` /
`last_activity` absent. -/
theorem c10_lazy_state_reported (ms : ManagerState) (now : Nat)
    (id : String) (d : ServerDefinition)
    (hget : ms.registry.get id = some d) (hid : d.id = id)
    (hstate : lookupKey id ms.status = none) :
    lookupKey id (get_stats ms now).servers = none ∧
    mkServerInfo d (get_stats ms now) =
      { id := d.id, display_name := d.display_name,
        description := d.description, status := ServerStatus.stopped,
        tags := d.tags, runtime_type := d.runtime.type_name,
        started_at := none, last_activity := none, request_count := 0 } ∧
    mkServerInfo d (get_stats ms now) ∈
      list_servers ms.registry (get_stats ms now) none ∧
    get_server ms.registry (get_stats ms now) id =
      Except.ok
        { id := d.id, display_name := d.display_name,
          description := d.description, status := ServerStatus.stopped,
          runtime_type := d.runtime.type_name, env := d.env, tags := d.tags,
          started_at := none, last_activity := none, request_count := 0,
          uptime_seconds := none } := by
  have h1 : lookupKey id (get_stats ms now).servers = none := by
    unfold get_stats
    exact lookupKey_map_val_none hstate _
  unfold ServerRegistry.get at hget
  refine ⟨h1, ?_, ?_, ?_⟩
  · unfold mkServerInfo
    rw [hid, h1]
    simp
  · refine List.mem_map.mpr ⟨d, ?_, rfl⟩
    refine List.mem_filter.mpr ⟨?_, rfl⟩
    exact List.mem_map.mpr ⟨(id, d), lookupKey_some_mem hget, rfl⟩
  · unfold get_server ServerRegistry.get
    simp [hget, h1]

/-- Witness for C10: the never-referenced `echo` server is reported stopped
with zero requests and listed. -/
theorem c10_lazy_state_witness :
    lookupKey "echo" (get_stats (initManager regEcho) 0).servers = none ∧
    mkServerInfo ((mkEntry "echo").toDef)
        (get_stats (initManager regEcho) 0) ∈
      list_servers regEcho (get_stats (initManager regEcho) 0) none := by
  have h := c10_lazy_state_reported (initManager regEcho) 0 "echo"
    ((mkEntry "echo").toDef) (by rfl) (by rfl) (by rfl)
  exact ⟨h.1, h.2.2.1⟩

end OpenMCP
